import Mathlib

/-!
Verification of the status value type of `fury/util/status.cc`.

The module defines a status value that is either success (a null state
pointer) or a failure holding an error kind and a message, together with a
hand-maintained bidirectional mapping between error kinds and canonical
strings.  We embed the state as `Option State` (the nullable pointer), the
two `unordered_map` tables as association lists, and the functions
`Status::Status`, `Status::CopyFrom`, `Status::ToString`,
`Status::CodeAsString` and `Status::StringToCode` as Lean functions.
Observers declared only in the header `fury/util/status.h` (absent from the
excerpt) are modelled from the spec and marked as such.
-/

/-- The closed enumeration `StatusCode` of error kinds. -/
inductive StatusCode where
  | OK
  | OutOfMemory
  | KeyError
  | TypeError
  | Invalid
  | IOError
  | UnknownError
  deriving DecidableEq, Repr

/-- The heap-allocated `State` struct: an error code and a message. -/
structure State where
  code : StatusCode
  msg : String
  deriving DecidableEq, Repr

/-- A `Status` value: `state = none` models the null `state_` pointer
(success), `state = some st` models a pointer to a failure `State`. -/
structure Status where
  state : Option State
  deriving DecidableEq, Repr

/-- The `code_to_str` table of `Status::CodeAsString`, entry for entry. -/
def code_to_str : List (StatusCode × String) :=
  [ (StatusCode.OK, "OK"),
    (StatusCode.OutOfMemory, "Out of memory"),
    (StatusCode.KeyError, "Key error"),
    (StatusCode.TypeError, "Type error"),
    (StatusCode.Invalid, "Invalid"),
    (StatusCode.IOError, "IOError"),
    (StatusCode.UnknownError, "Unknown error") ]

/-- The `str_to_code` table of `Status::StringToCode`, entry for entry. -/
def str_to_code : List (String × StatusCode) :=
  [ ("OK", StatusCode.OK),
    ("Out of memory", StatusCode.OutOfMemory),
    ("Key error", StatusCode.KeyError),
    ("Type error", StatusCode.TypeError),
    ("Invalid", StatusCode.Invalid),
    ("IOError", StatusCode.IOError),
    ("Unknown error", StatusCode.UnknownError) ]

/-- `Status::CodeAsString`: `"OK"` when `state_` is null, otherwise the
table entry for the stored code, falling back to `"Unknown error"` when the
code is absent from the table. -/
def Status.CodeAsString (s : Status) : String :=
  match s.state with
  | none => "OK"
  | some st =>
    match code_to_str.lookup st.code with
    | none => "Unknown error"
    | some v => v

/-- `Status::ToString`: the code string alone for success, otherwise the
code string, then `": "`, then the stored message. -/
def Status.ToString (s : Status) : String :=
  match s.state with
  | none => s.CodeAsString
  | some st => s.CodeAsString ++ ": " ++ st.msg

/-- `Status::StringToCode`: reverse table lookup, falling back to
`StatusCode.IOError` when the string is absent from the table. -/
def Status.StringToCode (str : String) : StatusCode :=
  match str_to_code.lookup str with
  | none => StatusCode.IOError
  | some c => c

/-- The state built by the body of the constructor
`Status::Status(StatusCode, const std::string &)` once its assertion has
passed: a fresh `State` holding the code and the message. -/
def Status.error (code : StatusCode) (msg : String) : Status :=
  { state := some { code := code, msg := msg } }

/-- The constructor `Status::Status(StatusCode, const std::string &)`
including its `assert(code != StatusCode::OK)`: `none` models the assertion
firing (execution halts), `some` the constructed status. -/
def Status.construct (code : StatusCode) (msg : String) : Option Status :=
  if code = StatusCode.OK then none else some (Status.error code msg)

/-- Modelled from the spec: the success factory `Ok()` is declared in the
header `fury/util/status.h`, which is not part of the excerpt.  Per the
spec it yields the success status, whose state pointer is null. -/
def Status.okStatus : Status := { state := none }

/-- Modelled from the spec: the observer `IsOk()` is declared only in the
missing header; per the spec it is true iff the variant is success. -/
def Status.IsOk (s : Status) : Bool := s.state.isNone

/-- Modelled from the spec: the observer `Kind()` (the `code()` accessor)
is declared only in the missing header; per the spec it is `OK` for
success and the stored kind otherwise. -/
def Status.Kind (s : Status) : StatusCode :=
  match s.state with
  | none => StatusCode.OK
  | some st => st.code

/-- Modelled from the spec: the observer `Message()` is declared only in
the missing header; per the spec it is empty for success and the stored
message otherwise. -/
def Status.Message (s : Status) : String :=
  match s.state with
  | none => ""
  | some st => st.msg

/-- The canonical string of a kind: the `code_to_str` entry, with the same
`"Unknown error"` fallback that `Status::CodeAsString` applies. -/
def canonicalString (k : StatusCode) : String :=
  match code_to_str.lookup k with
  | none => "Unknown error"
  | some v => v

/-- The list of the seven canonical strings, in table order. -/
def canonicalStrings : List String :=
  ["OK", "Out of memory", "Key error", "Type error", "Invalid",
   "IOError", "Unknown error"]

/-- For a failure status, `CodeAsString` is the canonical string of the
stored kind. -/
theorem codeAsString_error (k : StatusCode) (m : String) :
    (Status.error k m).CodeAsString = canonicalString k := rfl

/-- C1: encode-then-decode is the identity on kinds: for every kind, the
canonical string produced by the `CodeAsString` table decodes back to that
kind under `StringToCode`; this covers the six non-Ok kinds through their
failure statuses and `"OK"` through the success status. -/
theorem stringToCode_codeAsString_id :
    (∀ (k : StatusCode) (m : String),
      Status.StringToCode ((Status.error k m).CodeAsString) = k) ∧
    Status.StringToCode (Status.okStatus.CodeAsString) = StatusCode.OK := by
  constructor
  · intro k m
    cases k <;> rfl
  · rfl

/-- C2: every string that is none of the seven canonical strings decodes
to `StatusCode.IOError`. -/
theorem stringToCode_unmatched (s : String) (h : s ∉ canonicalStrings) :
    Status.StringToCode s = StatusCode.IOError := by
  simp only [canonicalStrings, List.mem_cons, List.not_mem_nil, or_false,
    not_or] at h
  obtain ⟨h1, h2, h3, h4, h5, h6, h7⟩ := h
  have e1 : (s == "OK") = false := beq_eq_false_iff_ne.mpr h1
  have e2 : (s == "Out of memory") = false := beq_eq_false_iff_ne.mpr h2
  have e3 : (s == "Key error") = false := beq_eq_false_iff_ne.mpr h3
  have e4 : (s == "Type error") = false := beq_eq_false_iff_ne.mpr h4
  have e5 : (s == "Invalid") = false := beq_eq_false_iff_ne.mpr h5
  have e6 : (s == "IOError") = false := beq_eq_false_iff_ne.mpr h6
  have e7 : (s == "Unknown error") = false := beq_eq_false_iff_ne.mpr h7
  simp [Status.StringToCode, str_to_code, List.lookup,
    e1, e2, e3, e4, e5, e6, e7]

/-- C2 witness: the concrete unmatched string of the spec decodes to
`IOError`. -/
theorem stringToCode_unmatched_witness :
    "not-a-real-code" ∉ canonicalStrings ∧
    Status.StringToCode "not-a-real-code" = StatusCode.IOError :=
  ⟨by decide, stringToCode_unmatched "not-a-real-code" (by decide)⟩

/-- C5: the success status has `IsOk` true, kind `OK`, an empty message,
and renders as `"OK"`. -/
theorem okStatus_spec :
    Status.okStatus.IsOk = true ∧
    Status.okStatus.Kind = StatusCode.OK ∧
    Status.okStatus.Message = "" ∧
    Status.okStatus.ToString = "OK" :=
  ⟨rfl, rfl, rfl, rfl⟩

/-- C3: `ToString` renders success as exactly the canonical kind string and
a failure as the canonical kind string, then `": "`, then the stored
message, with nothing appended after the message. -/
theorem toString_format (k : StatusCode) (m : String)
    (h : k ≠ StatusCode.OK) :
    (Status.error k m).ToString = canonicalString k ++ ": " ++ m ∧
    Status.okStatus.ToString = canonicalString StatusCode.OK := by
  exact ⟨rfl, rfl⟩

/-- C3 witness: the spec example `Error(TypeError, "bad shape")` renders as
`"Type error: bad shape"`. -/
theorem toString_format_witness :
    (Status.error StatusCode.TypeError "bad shape").ToString =
      "Type error: bad shape" := by
  have h := toString_format StatusCode.TypeError "bad shape" (by decide)
  exact h.1.trans rfl

/-- C4: for every kind other than `OK` and every message, the failure built
by the constructor has `IsOk` false, the given kind, and the given
message. -/
theorem error_observers (k : StatusCode) (m : String)
    (h : k ≠ StatusCode.OK) :
    (Status.error k m).IsOk = false ∧
    (Status.error k m).Kind = k ∧
    (Status.error k m).Message = m :=
  ⟨rfl, rfl, rfl⟩

/-- C4 witness: the observers evaluated on a concrete failure. -/
theorem error_observers_witness :
    (Status.error StatusCode.KeyError "missing").IsOk = false ∧
    (Status.error StatusCode.KeyError "missing").Kind = StatusCode.KeyError ∧
    (Status.error StatusCode.KeyError "missing").Message = "missing" :=
  error_observers StatusCode.KeyError "missing" (by decide)

/-- C6: the constructor asserts `code != StatusCode::OK`; building a
failure with kind `OK` halts at the assertion (no status is produced) for
every message, while under the precondition `kind ≠ OK` the assertion
passes and the constructed status is returned. -/
theorem construct_assert (m : String) :
    Status.construct StatusCode.OK m = none ∧
    ∀ k, k ≠ StatusCode.OK →
      Status.construct k m = some (Status.error k m) := by
  refine ⟨rfl, ?_⟩
  intro k hk
  simp [Status.construct, hk]

/-- C6 witness: `Error(ErrorKind::Ok, "x")` hits the assertion, while a
`TypeError` status is constructed normally. -/
theorem construct_assert_witness :
    Status.construct StatusCode.OK "x" = none ∧
    Status.construct StatusCode.TypeError "x" =
      some (Status.error StatusCode.TypeError "x") :=
  ⟨(construct_assert "x").1,
   (construct_assert "x").2 StatusCode.TypeError (by decide)⟩

/-- C9: decode-then-encode is the identity on the seven canonical strings:
each canonical string, decoded by `StringToCode` and re-encoded through the
`code_to_str` table, yields itself. -/
theorem codeAsString_stringToCode_id (s : String)
    (h : s ∈ canonicalStrings) :
    canonicalString (Status.StringToCode s) = s := by
  fin_cases h <;> rfl

/-- C9 witness: decode-then-encode on a concrete canonical string. -/
theorem codeAsString_stringToCode_id_witness :
    "Key error" ∈ canonicalStrings ∧
    canonicalString (Status.StringToCode "Key error") = "Key error" :=
  ⟨by decide, codeAsString_stringToCode_id "Key error" (by decide)⟩

/-- C10: a failure with an empty message renders as the canonical kind
string followed by `": "` with nothing after it; this differs both from
the bare canonical kind string and from the rendering of the success
status. -/
theorem toString_empty_message (k : StatusCode) (h : k ≠ StatusCode.OK) :
    (Status.error k "").ToString = canonicalString k ++ ": " ∧
    (Status.error k "").ToString ≠ canonicalString k ∧
    (Status.error k "").ToString ≠ Status.okStatus.ToString := by
  cases k
  · exact absurd rfl h
  all_goals exact ⟨rfl, by decide, by decide⟩

/-- C10 witness: the empty-message rendering at a concrete kind. -/
theorem toString_empty_message_witness :
    (Status.error StatusCode.Invalid "").ToString = "Invalid: " ∧
    (Status.error StatusCode.Invalid "").ToString ≠ "Invalid" ∧
    (Status.error StatusCode.Invalid "").ToString ≠ "OK" := by
  have h := toString_empty_message StatusCode.Invalid (by decide)
  exact ⟨h.1.trans rfl, h.2.1, h.2.2⟩

/-- Modelled from the spec: the underlying integer values of the
`StatusCode` enum, which is declared in the missing header
`fury/util/status.h`.  A C++ scoped enum may carry integer values other
than its enumerators, which is what makes the defensive table fallback of
`Status::CodeAsString` reachable; the enumerators are numbered in
declaration order. -/
def StatusCode.toRaw : StatusCode → Nat
  | StatusCode.OK => 0
  | StatusCode.OutOfMemory => 1
  | StatusCode.KeyError => 2
  | StatusCode.TypeError => 3
  | StatusCode.Invalid => 4
  | StatusCode.IOError => 5
  | StatusCode.UnknownError => 6

/-- The `code_to_str` table keyed by the raw integer value of the code,
as the `unordered_map` hashes and compares it at runtime. -/
def code_to_str_raw : List (Nat × String) :=
  code_to_str.map (fun p => (StatusCode.toRaw p.1, p.2))

/-- `Status::CodeAsString` over a state whose code field holds a raw
integer value: `"OK"` for a null state, the table entry when the value is
a key of the table, and the `"Unknown error"` fallback otherwise. -/
def codeAsStringRaw (state : Option Nat) : String :=
  match state with
  | none => "OK"
  | some c =>
    match code_to_str_raw.lookup c with
    | none => "Unknown error"
    | some v => v

/-- C8: for a failure state whose code value is not a key of the
kind-to-string table, `CodeAsString` returns the canonical string of
`UnknownError` instead of failing. -/
theorem codeAsStringRaw_unknown (n : Nat)
    (h : n ∉ code_to_str_raw.map Prod.fst) :
    codeAsStringRaw (some n) = "Unknown error" := by
  simp only [code_to_str_raw, code_to_str, StatusCode.toRaw, List.map_cons,
    List.map_nil, List.mem_cons, List.not_mem_nil, or_false, not_or] at h
  obtain ⟨h1, h2, h3, h4, h5, h6, h7⟩ := h
  have e1 : (n == 0) = false := beq_eq_false_iff_ne.mpr h1
  have e2 : (n == 1) = false := beq_eq_false_iff_ne.mpr h2
  have e3 : (n == 2) = false := beq_eq_false_iff_ne.mpr h3
  have e4 : (n == 3) = false := beq_eq_false_iff_ne.mpr h4
  have e5 : (n == 4) = false := beq_eq_false_iff_ne.mpr h5
  have e6 : (n == 5) = false := beq_eq_false_iff_ne.mpr h6
  have e7 : (n == 6) = false := beq_eq_false_iff_ne.mpr h7
  simp [codeAsStringRaw, code_to_str_raw, code_to_str, StatusCode.toRaw,
    List.lookup, e1, e2, e3, e4, e5, e6, e7]

/-- C8 witness: a concrete out-of-table code value falls back to
`"Unknown error"`. -/
theorem codeAsStringRaw_unknown_witness :
    100 ∉ code_to_str_raw.map Prod.fst ∧
    codeAsStringRaw (some 100) = "Unknown error" :=
  ⟨by decide, codeAsStringRaw_unknown 100 (by decide)⟩

/-- A model of the C++ heap of `State` cells: the cell at position `a`
of the list is the content of address `a`, with `none` for a freed or
never-allocated cell.  `new State` appends a fresh cell at the end. -/
abbrev Heap := List (Option State)

/-- Reading the cell at address `a`; out-of-range reads yield `none`. -/
def heapRead (h : Heap) (a : Nat) : Option State := (h[a]?).getD none

/-- `delete` at address `a`: the cell becomes empty (a no-op when out of
range, matching `delete` of a pointer that was never handed out). -/
def heapFree (h : Heap) (a : Nat) : Heap := h.set a none

/-- Overwriting the cell at address `a` with the value `v`. -/
def heapWrite (h : Heap) (a : Nat) (v : State) : Heap := h.set a (some v)

/-- `new State(v)`: allocate a fresh cell holding `v`; returns the heap
after allocation and the fresh address. -/
def heapAlloc (h : Heap) (v : State) : Heap × Nat := (h ++ [some v], h.length)

/-- `Status::CopyFrom(const State *state)` over the heap model: first
`delete state_` (freeing the cell the receiver holds; a no-op for a null
receiver), then either store the null pointer when `state` is null, or
allocate a fresh cell holding a copy of `*state` and store its address.
Reading through an invalid source pointer is undefined behaviour in C++;
the model returns a null pointer there and the theorems only use valid
sources. -/
def Status.CopyFrom (h : Heap) (self : Option Nat) (state : Option Nat) :
    Heap × Option Nat :=
  let h1 := match self with
    | none => h
    | some a => heapFree h a
  match state with
  | none => (h1, none)
  | some p =>
    match heapRead h1 p with
    | none => (h1, none)
    | some v =>
      let r := heapAlloc h1 v
      (r.1, some r.2)

/-- An allocated cell lies below the heap length. -/
theorem heapRead_lt_of_some {h : Heap} {a : Nat} {v : State}
    (hv : heapRead h a = some v) : a < h.length := by
  by_contra hlt
  have hnone : h[a]? = none := List.getElem?_eq_none (by omega)
  simp [heapRead, hnone] at hv

/-- C7: copying is deep and releasing.  With `self` holding the payload at
address `q0` and copying from a valid source payload at a distinct address
`p`, `CopyFrom` stores a fresh address (distinct from both `p` and `q0`)
whose cell holds the same `State` value as the source; the previously held
payload cell at `q0` is released; and subsequently destroying or
overwriting the source cell at `p` leaves the content of the copy
unchanged.  Copying from a null source yields a success (null) pointer. -/
theorem copyFrom_deep (h : Heap) (q0 p : Nat) (v w m2 : State)
    (sp : Option Nat)
    (hp : heapRead h p = some v) (hq : heapRead h q0 = some w)
    (hne : q0 ≠ p) :
    (Status.CopyFrom h (some q0) (some p)).2 = some h.length ∧
    h.length ≠ p ∧
    h.length ≠ q0 ∧
    heapRead (Status.CopyFrom h (some q0) (some p)).1 h.length = some v ∧
    heapRead (Status.CopyFrom h (some q0) (some p)).1 q0 = none ∧
    heapRead (heapFree (Status.CopyFrom h (some q0) (some p)).1 p)
      h.length = some v ∧
    heapRead (heapWrite (Status.CopyFrom h (some q0) (some p)).1 p m2)
      h.length = some v ∧
    (Status.CopyFrom h sp none).2 = none := by
  have hplen : p < h.length := heapRead_lt_of_some hp
  have hqlen : q0 < h.length := heapRead_lt_of_some hq
  have h1p : heapRead (List.set h q0 none) p = some v := by
    simpa [heapRead, List.getElem?_set_ne hne] using hp
  have hcf : Status.CopyFrom h (some q0) (some p)
      = (List.set h q0 none ++ [some v], some h.length) := by
    simp [Status.CopyFrom, heapFree, h1p, heapAlloc]
  have hlen1 : (List.set h q0 none).length = h.length := by simp
  refine ⟨by rw [hcf], by omega, by omega, ?_, ?_, ?_, ?_, ?_⟩
  · rw [hcf]
    simp only [heapRead]
    rw [← hlen1, List.getElem?_concat_length]
    rfl
  · rw [hcf]
    simp only [heapRead]
    rw [List.getElem?_append_left (by omega),
      List.getElem?_set_self (by omega)]
    rfl
  · rw [hcf]
    simp only [heapRead, heapFree]
    rw [List.getElem?_set_ne (by omega)]
    rw [← hlen1, List.getElem?_concat_length]
    rfl
  · rw [hcf]
    simp only [heapRead, heapWrite]
    rw [List.getElem?_set_ne (by omega)]
    rw [← hlen1, List.getElem?_concat_length]
    rfl
  · cases sp <;> rfl

/-- C7 witness: a concrete two-cell heap where status A holds cell 0 and
copies from the payload of cell 1; the copy lands in fresh cell 2, cell 0
is released, and freeing or overwriting cell 1 afterwards leaves the copy
intact. -/
theorem copyFrom_deep_witness :
    heapRead [some (State.mk StatusCode.TypeError "a"),
      some (State.mk StatusCode.Invalid "b")] 1 =
      some (State.mk StatusCode.Invalid "b") ∧
    (Status.CopyFrom [some (State.mk StatusCode.TypeError "a"),
      some (State.mk StatusCode.Invalid "b")] (some 0) (some 1)).2 =
      some 2 ∧
    heapRead (Status.CopyFrom [some (State.mk StatusCode.TypeError "a"),
      some (State.mk StatusCode.Invalid "b")] (some 0) (some 1)).1 2 =
      some (State.mk StatusCode.Invalid "b") ∧
    heapRead (Status.CopyFrom [some (State.mk StatusCode.TypeError "a"),
      some (State.mk StatusCode.Invalid "b")] (some 0) (some 1)).1 0 =
      none ∧
    heapRead (heapFree (Status.CopyFrom
      [some (State.mk StatusCode.TypeError "a"),
       some (State.mk StatusCode.Invalid "b")] (some 0) (some 1)).1 1) 2 =
      some (State.mk StatusCode.Invalid "b") ∧
    heapRead (heapWrite (Status.CopyFrom
      [some (State.mk StatusCode.TypeError "a"),
       some (State.mk StatusCode.Invalid "b")] (some 0) (some 1)).1 1
      (State.mk StatusCode.KeyError "z")) 2 =
      some (State.mk StatusCode.Invalid "b") := by
  have h := copyFrom_deep
    [some (State.mk StatusCode.TypeError "a"),
     some (State.mk StatusCode.Invalid "b")] 0 1
    (State.mk StatusCode.Invalid "b") (State.mk StatusCode.TypeError "a")
    (State.mk StatusCode.KeyError "z") none rfl rfl (by decide)
  exact ⟨rfl, h.1, h.2.2.2.1, h.2.2.2.2.1, h.2.2.2.2.2.1, h.2.2.2.2.2.2.1⟩
